import Mathlib

/- Verification development for the Telegram-to-Supabase bridge bot.
   The TypeScript source (command parser, photo selection, order/product
   handlers, webhook endpoint) is shallowly embedded below; JS strings are
   modelled as lists of characters, JS `string | null` as `Option`,
   thrown validation errors as `Except`, and the handlers as pure
   functions returning the list of external effects they perform. -/

namespace TelegramBridge

/-- JS strings are modelled as lists of characters. -/
abbrev Str := List Char

/-- Coercion from Lean string literals into the model. -/
def str (s : String) : Str := s.data

/-- The whitespace class used by JS `trim`, `\s` and `\s+` (the JS set also
contains further exotic Unicode space separators, irrelevant here). -/
def jsWs (c : Char) : Bool :=
  c == ' ' || c == '\t' || c == '\n' || c == '\r' || c == '\x0b' || c == '\x0c' ||
  c == '\u00a0' || c == '\ufeff'

/-- Models `String.prototype.trim`. -/
def trim (s : Str) : Str := ((s.dropWhile jsWs).reverse.dropWhile jsWs).reverse

/-- Models `String.prototype.toLowerCase` (ASCII case mapping; the commands,
keys and the `tracking=` prefix compared against are all ASCII). -/
def toLower (s : Str) : Str := s.map Char.toLower

/-- Splits at every character satisfying `p`, keeping empty pieces,
like JS `split` on a single-character separator. Never returns `[]`. -/
def splitAux (p : Char → Bool) : Str → List Str
  | [] => [[]]
  | c :: cs =>
    if p c then [] :: splitAux p cs
    else
      match splitAux p cs with
      | [] => [[c]]
      | t :: ts => (c :: t) :: ts

/-- Models JS `split('\n')` and the like. -/
def splitChar (c : Char) (s : Str) : List Str := splitAux (fun x => x == c) s

/-- Models JS `split(/\s+/)` on a trimmed input (the only way the source uses
it): the maximal whitespace-free runs, i.e. the non-empty pieces of the
single-character split. -/
def splitWs (s : Str) : List Str := (splitAux jsWs s).filter (fun t => decide (t ≠ []))

/-- A JS number as produced by `parseFloat`: a finite value (exact rational
semantics of the decimal literal; IEEE rounding is immaterial to the
sign/NaN tests the source performs) or a signed infinity.  `none` at the
use sites below stands for NaN. -/
inductive JsNum where
  | finite (q : ℚ)
  | posInf
  | negInf
deriving DecidableEq

/-- Numeric value of a list of ASCII digits. -/
def digitsVal (ds : Str) : ℕ := ds.foldl (fun n c => 10 * n + (c.toNat - 48)) 0

/-- Models JS `parseFloat`: skip leading whitespace, optional sign, then the
longest prefix that is `Infinity` or a decimal literal
(`digits [. digits]`, `. digits`, optional exponent); `none` when no such
prefix exists (JS `NaN`). -/
def parsePF (s : Str) : Option JsNum :=
  let t := s.dropWhile jsWs
  let sgn : ℤ := match t with
    | '-' :: _ => -1
    | _ => 1
  let rest : Str := match t with
    | '-' :: r => r
    | '+' :: r => r
    | _ => t
  if (str "Infinity").isPrefixOf rest then
    some (if sgn = 1 then JsNum.posInf else JsNum.negInf)
  else
    let d1 := rest.takeWhile Char.isDigit
    let rest1 := rest.drop d1.length
    let d2 : Str := match rest1 with
      | '.' :: r => r.takeWhile Char.isDigit
      | _ => []
    let rest2 : Str := match rest1 with
      | '.' :: r => r.drop (r.takeWhile Char.isDigit).length
      | _ => rest1
    if d1 = [] ∧ d2 = [] then none
    else
      let e : ℤ := match rest2 with
        | c :: r =>
          if c = 'e' ∨ c = 'E' then
            let es : ℤ := match r with
              | '-' :: _ => -1
              | _ => 1
            let r2 : Str := match r with
              | '-' :: rr => rr
              | '+' :: rr => rr
              | _ => r
            let ed := r2.takeWhile Char.isDigit
            if ed = [] then 0 else es * (digitsVal ed : ℤ)
          else 0
        | [] => 0
      let base : ℤ := (digitsVal d1 * 10 ^ d2.length + digitsVal d2 : ℕ)
      some (JsNum.finite
        (if 0 ≤ e then mkRat (sgn * base * 10 ^ e.toNat) (10 ^ d2.length)
         else mkRat (sgn * base) (10 ^ (d2.length + (-e).toNat))))

/-- The test `price < 0` of the source, on a parseFloat result. -/
def jsNeg : JsNum → Bool
  | JsNum.finite q => decide (q < 0)
  | JsNum.posInf => false
  | JsNum.negInf => true

/-- Result type of `parseProductCaption` (interface `ParsedProduct`;
`description: string | null` becomes `Option Str`). -/
structure ParsedProduct where
  name : Str
  price : JsNum
  description : Option Str
deriving DecidableEq

/-- Result type of `parseOrderUpdate` (interface `ParsedOrderUpdate`). -/
structure ParsedOrderUpdate where
  orderNumber : Str
  status : Str
  trackingNumber : Option Str
deriving DecidableEq

/-- The command token of `/add_product`. -/
def addProductCmd : Str := str "/add_product"

/-- The command token of `/update_order`. -/
def updateOrderCmd : Str := str "/update_order"

/-- Models `s.replace(/^<cmd>\s*/i, '')`: when the input starts with the
(all-ASCII, lowercase) command token up to ASCII case, remove it together
with the whitespace run following it; otherwise the input is unchanged. -/
def stripCommand (cmd s : Str) : Str :=
  if toLower (s.take cmd.length) = cmd then (s.drop cmd.length).dropWhile jsWs else s

/-- Key of a caption line containing a colon: the part before the first
colon, trimmed then lower-cased (`line.substring(0, colonIndex).trim().toLowerCase()`). -/
def lineKey (line : Str) : Str := toLower (trim (line.takeWhile (fun c => c ≠ ':')))

/-- Value of a caption line containing a colon: the part after the first
colon, trimmed (`line.substring(colonIndex + 1).trim()`). -/
def lineVal (line : Str) : Str := trim ((line.dropWhile (fun c => c ≠ ':')).drop 1)

/-- The non-empty trimmed lines of the caption after the command is removed:
`caption.replace(/^\/add_product\s*/i, '').trim().split('\n').map(trim).filter(nonempty)`. -/
def productLines (caption : Str) : List Str :=
  ((splitChar '\n' (trim (stripCommand addProductCmd caption))).map trim).filter
    (fun l => decide (l ≠ []))

/-- The record `data` built by `parseProductCaption`: each line containing a
colon assigns `data[key] = value`; a JS record assignment is modelled by
prepending the pair, with lookup returning the most recent assignment. -/
def productData (caption : Str) : List (Str × Str) :=
  (productLines caption).foldl
    (fun m line =>
      if ':' ∈ line then (lineKey line, lineVal line) :: m else m)
    []

/-- Lookup in the record model: the most recent assignment of the key. -/
def recGet (m : List (Str × Str)) (k : Str) : Option Str :=
  (m.find? (fun p => decide (p.1 = k))).map Prod.snd

/-- The record key `name`. -/
def nameKey : Str := str "name"

/-- The record key `price`. -/
def priceKey : Str := str "price"

/-- The record key `description`. -/
def descKey : Str := str "description"

/-- Message thrown when `!data.name`. -/
def nameRequiredMsg : Str := str "Product name is required. Format: \"Name: Product Name\""

/-- Message thrown when `!data.price`. -/
def priceRequiredMsg : Str := str "Product price is required. Format: \"Price: 99.99\""

/-- Message thrown when the price does not parse or is negative; it embeds
the offending raw value. -/
def invalidPriceMsg (raw : Str) : Str :=
  str "Invalid price format: \"" ++ raw ++ str "\". Please use a number like 29.99"

/-- Embedding of `parseProductCaption` (src/utils/parser.ts).  JS truthiness:
`!data.name` holds when the key is absent or its value is the empty string,
likewise for `price`; `data.description || null` collapses an empty
description to null. -/
def parseProductCaption (caption : Str) : Except Str ParsedProduct :=
  match recGet (productData caption) nameKey with
  | none => Except.error nameRequiredMsg
  | some nm =>
    if nm = [] then Except.error nameRequiredMsg
    else
      match recGet (productData caption) priceKey with
      | none => Except.error priceRequiredMsg
      | some pr =>
        if pr = [] then Except.error priceRequiredMsg
        else
          match parsePF pr with
          | none => Except.error (invalidPriceMsg pr)
          | some v =>
            if jsNeg v then Except.error (invalidPriceMsg pr)
            else
              Except.ok
                { name := nm
                  price := v
                  description :=
                    match recGet (productData caption) descKey with
                    | none => none
                    | some d => if d = [] then none else some d }

/-- The error message of `parseOrderUpdate` for a missing order number or
status (thrown both for an empty remainder and for fewer than 2 tokens). -/
def orderFormatMsg : Str :=
  str "Order update requires order number and status. Format: /update_order <order_number> <status> [tracking=<tracking_number>]"

/-- The `tracking=` parameter marker. -/
def trackingPfx : Str := str "tracking="

/-- The test `part.toLowerCase().startsWith('tracking=')`. -/
def isTrackingTok (p : Str) : Bool := trackingPfx.isPrefixOf (toLower p)

/-- The scan of the tokens from index 2 onward: the first token matching the
`tracking=` prefix yields everything after the prefix, verbatim
(`part.substring('tracking='.length)`). -/
def findTracking (rest : List Str) : Option Str :=
  (rest.find? isTrackingTok).map (fun p => p.drop trackingPfx.length)

/-- The token list `parts` of `parseOrderUpdate`: remainder after the command,
trimmed and split on whitespace runs. -/
def orderTokens (text : Str) : List Str :=
  splitWs (trim (stripCommand updateOrderCmd text))

/-- Embedding of `parseOrderUpdate` (src/utils/parser.ts). -/
def parseOrderUpdate (text : Str) : Except Str ParsedOrderUpdate :=
  if trim (stripCommand updateOrderCmd text) = [] then Except.error orderFormatMsg
  else
    match splitWs (trim (stripCommand updateOrderCmd text)) with
    | a :: b :: rest =>
      if a = [] then Except.error (str "Order number cannot be empty")
      else if b = [] then Except.error (str "Status cannot be empty")
      else Except.ok { orderNumber := a, status := b, trackingNumber := findTracking rest }
    | _ => Except.error orderFormatMsg

/-- Embedding of `mimeToExtension` (src/utils/parser.ts): fixed table with a
`jpg` default for a missing or unknown MIME type. -/
def mimeToExtension (mimeType : Option Str) : Str :=
  match mimeType with
  | none => str "jpg"
  | some m =>
    let ml := toLower m
    if ml = str "image/jpeg" then str "jpg"
    else if ml = str "image/jpg" then str "jpg"
    else if ml = str "image/png" then str "png"
    else if ml = str "image/gif" then str "gif"
    else if ml = str "image/webp" then str "webp"
    else str "jpg"

/-- A Telegram `PhotoSize` image variant (the fields the source reads). -/
structure PhotoSize where
  file_id : Str
  file_size : Option ℕ
  mime_type : Option Str
deriving DecidableEq

/-- The reported byte size used in the comparison, `p.file_size || 0`. -/
def psize (p : PhotoSize) : ℕ := p.file_size.getD 0

/-- The `reduce` callback of `getHighestResolutionPhoto`:
`(prev.file_size || 0) > (current.file_size || 0) ? prev : current`. -/
def hstep (prev current : PhotoSize) : PhotoSize :=
  if psize current < psize prev then prev else current

/-- Embedding of `getHighestResolutionPhoto` (telegramService): `reduce` with
no initial value, which throws on an empty array — modelled as `none`. -/
def getHighestResolutionPhoto : List PhotoSize → Option PhotoSize
  | [] => none
  | p :: ps => some (ps.foldl hstep p)

/-- The maximal reported byte size over a list of variants (missing sizes
count as 0). Spec-side notion for the amended C5. -/
def maxPsize (l : List PhotoSize) : ℕ := l.foldl (fun m x => max m (psize x)) 0

/-- Spec-side description of the selection actually implemented: the
last-seen variant among those of maximal reported byte size. -/
def specLastMaxPhoto (l : List PhotoSize) : Option PhotoSize :=
  l.reverse.find? (fun x => decide (maxPsize l ≤ psize x))

/-- An order row of the external store (interface `Order`; the fields the
core reads and writes). -/
structure Order where
  order_number : Str
  customer_email : Str
  status : Str
  tracking_number : Option Str
deriving DecidableEq

/-- The update payload `{ status, tracking_number? }` built by
`handleUpdateOrder`; `tracking_number := none` models the field being
omitted from the payload. -/
structure OrderUpdates where
  status : Str
  tracking_number : Option Str
deriving DecidableEq

/-- A product row sent to the external store by `handleAddProduct`. -/
structure ProductRecord where
  name : Str
  price : JsNum
  description : Option Str
  image_url : Str
deriving DecidableEq

/-- Modelled from the spec: the external store's lookup
`find-order-by-number(orderNumber) → record-or-absent`
(`supabaseService.findOrderByNumber` selects the single row whose
`order_number` equals the key). -/
def findOrderByNumber (store : List Order) (n : Str) : Option Order :=
  store.find? (fun o => decide (o.order_number = n))

/-- Modelled from the spec: the external store's partial update
`update-order(orderNumber, partialFields) → updated-record`; a field absent
from the payload leaves the stored column unchanged. -/
def applyUpdates (o : Order) (u : OrderUpdates) : Order :=
  { o with
    status := u.status
    tracking_number :=
      match u.tracking_number with
      | some t => some t
      | none => o.tracking_number }

/-- One external call performed by a handler, in order of occurrence. -/
inductive Effect where
  | sendMessage (chatId : ℤ) (text : Str)
  | findOrder (orderNumber : Str)
  | updateOrder (orderNumber : Str) (updates : OrderUpdates)
  | logEmail (email : Str) (orderNumber : Str) (status : Str)
  | getFileLink (fileId : Str)
  | downloadFile (fileUrl : Str)
  | uploadImage (ext : Str)
  | createProduct (record : ProductRecord)
deriving DecidableEq

/-- The handler prefix put in front of a parser message, `❌ Error: <m>`. -/
def errPfx (m : Str) : Str := str "❌ Error: " ++ m

/-- Reply of `handleUpdateOrder` when `msg.text` is absent. -/
def noTextMsg : Str := str "❌ Error: No text provided for order update."

/-- The not-found reply of `handleUpdateOrder`; it names the order number. -/
def notFoundMsg (n : Str) : Str :=
  str "❌ Error: Order '" ++ n ++ str "' not found in the database."

/-- The truthiness test `if (trackingNumber)` deciding whether the
confirmation message carries a tracking line: null and the empty string are
both falsy. -/
def jsTrackLine : Option Str → Option Str
  | some tn => if tn = [] then none else some tn
  | none => none

/-- The confirmation message of `handleUpdateOrder`; `tracking = none` means
the tracking line is omitted. -/
def confirmMsg (orderNumber status email : Str) (tracking : Option Str) : Str :=
  str "✅ Order " ++ orderNumber ++ str " has been updated to '" ++ status ++ str "'.\n\n" ++
  str "📧 Customer: " ++ email ++ str "\n" ++
  (match tracking with
   | some tn => str "📮 Tracking: " ++ tn ++ str "\n"
   | none => []) ++
  str "\n💌 Email notification queued for customer."

/-- Embedding of `handleUpdateOrder` (src/handlers/orderHandler.ts) as the
list of external calls it performs; the store is passed in place of the
external database, and the store calls are assumed to succeed (the
catch-all branch for external-service failures is not exercised by any
claim). -/
def handleUpdateOrder (chatId : ℤ) (text : Option Str) (store : List Order) : List Effect :=
  match text with
  | none => [Effect.sendMessage chatId noTextMsg]
  | some t =>
    match parseOrderUpdate t with
    | Except.error m => [Effect.sendMessage chatId (errPfx m)]
    | Except.ok p =>
      Effect.findOrder p.orderNumber ::
      match findOrderByNumber store p.orderNumber with
      | none => [Effect.sendMessage chatId (notFoundMsg p.orderNumber)]
      | some o =>
        let updates : OrderUpdates :=
          { status := p.status
            tracking_number :=
              match p.trackingNumber with
              | some tn => some tn
              | none => none }
        let updatedOrder := applyUpdates o updates
        [Effect.updateOrder p.orderNumber updates,
         Effect.logEmail updatedOrder.customer_email p.orderNumber p.status,
         Effect.sendMessage chatId
           (confirmMsg p.orderNumber p.status updatedOrder.customer_email
             (jsTrackLine p.trackingNumber))]

/-- Reply of `handleAddProduct` when the message has no photo. -/
def photoRequiredMsg : Str :=
  str "❌ Error: Please send a photo with the /add_product command."

/-- Reply of `handleAddProduct` when the message has no caption. -/
def captionRequiredMsg : Str :=
  str "❌ Error: Please include a caption with product details.\n\nFormat:\n/add_product\nName: Product Name\nPrice: 99.99\nDescription: Product description"

/-- Reply of `handleAddProduct` when the caption does not start with the
command. -/
def captionPrefixMsg : Str := str "❌ Error: Caption must start with /add_product"

/-- The catch-all reply of `handleAddProduct`, wrapping the causing error's
message. -/
def addErrMsg (m : Str) : Str :=
  str "❌ Error adding product: " ++ m ++
  str "\n\nPlease try again or contact support if the issue persists."

/-- The message of the TypeError thrown by `reduce` on an empty array. -/
def reduceEmptyMsg : Str := str "Reduce of empty array with no initial value"

/-- Simple decimal rendering of a price for the success reply; stands for
`price.toFixed(2)` (exact IEEE formatting is immaterial: no claim inspects
the success text). -/
def renderPrice : JsNum → Str
  | JsNum.finite q => str (toString (((q * 100).floor : ℤ)))
  | JsNum.posInf => str "Infinity"
  | JsNum.negInf => str "-Infinity"

/-- The success reply of `handleAddProduct`. -/
def addSuccessMsg (name : Str) (price : JsNum) (pid : ℕ) (url : Str) : Str :=
  str "✅ Product '" ++ name ++ str "' added successfully.\n\n💰 Price: $" ++
  renderPrice price ++ str "\n🆔 Product ID: " ++ str (toString pid) ++
  str "\n🖼️  Image: " ++ url

/-- The external collaborators of `handleAddProduct`: Telegram file download
and Supabase storage/database, each call allowed to fail with a message. -/
structure TgEnv where
  fileLink : Str → Str
  download : Str → Except Str (List ℕ)
  upload : List ℕ → Str → Except Str Str
  insertProduct : ProductRecord → Except Str ℕ

/-- The fields of a Telegram message the handlers read. -/
structure TgMessage where
  chatId : ℤ
  photo : Option (List PhotoSize)
  caption : Option Str
  text : Option Str

/-- Embedding of `handleAddProduct` (src/handlers/productHandler.ts) as the
list of external calls it performs. JS truthiness: `!msg.photo ||
msg.photo.length === 0` and `!msg.caption` treat an absent list, an empty
list and an empty caption as missing. The `none` branch after the photo
selection models the TypeError of `reduce` reaching the catch-all. -/
def handleAddProduct (env : TgEnv) (msg : TgMessage) : List Effect :=
  let chatId := msg.chatId
  match msg.photo with
  | none => [Effect.sendMessage chatId photoRequiredMsg]
  | some [] => [Effect.sendMessage chatId photoRequiredMsg]
  | some (p :: ps) =>
    match msg.caption with
    | none => [Effect.sendMessage chatId captionRequiredMsg]
    | some cap =>
      if cap = [] then [Effect.sendMessage chatId captionRequiredMsg]
      else if ¬ (addProductCmd.isPrefixOf (toLower cap)) then
        [Effect.sendMessage chatId captionPrefixMsg]
      else
        match parseProductCaption cap with
        | Except.error m => [Effect.sendMessage chatId (errPfx m)]
        | Except.ok prod =>
          match getHighestResolutionPhoto (p :: ps) with
          | none => [Effect.sendMessage chatId (addErrMsg reduceEmptyMsg)]
          | some photo =>
            let fileUrl := env.fileLink photo.file_id
            Effect.getFileLink photo.file_id ::
            Effect.downloadFile fileUrl ::
            match env.download fileUrl with
            | Except.error m => [Effect.sendMessage chatId (addErrMsg m)]
            | Except.ok buf =>
              let ext := mimeToExtension photo.mime_type
              Effect.uploadImage ext ::
              match env.upload buf ext with
              | Except.error m => [Effect.sendMessage chatId (addErrMsg m)]
              | Except.ok url =>
                let record : ProductRecord :=
                  { name := prod.name
                    price := prod.price
                    description := prod.description
                    image_url := url }
                Effect.createProduct record ::
                match env.insertProduct record with
                | Except.error m => [Effect.sendMessage chatId (addErrMsg m)]
                | Except.ok pid =>
                  [Effect.sendMessage chatId (addSuccessMsg prod.name prod.price pid url)]

/-- Embedding of the webhook endpoint of `createServer` (src/index.ts): check
the shared-secret header against the configured value, reject a missing
body, otherwise hand the body to the dispatcher. The result is the HTTP
status code paired with the update handed to `processUpdate` (none when no
dispatch occurs); the body type is opaque. -/
def webhookPost {U : Type} (cfgSecret : Str) (secret : Option Str) (body : Option U) :
    ℕ × Option U :=
  if secret = some cfgSecret then
    match body with
    | none => (400, none)
    | some u => (200, some u)
  else (403, none)

/-- An HTTP client-error status. -/
def isClientError (n : ℕ) : Prop := 400 ≤ n ∧ n < 500

/-- An HTTP success status. -/
def isSuccess (n : ℕ) : Prop := 200 ≤ n ∧ n < 300

/-- Spec-side description of the caption key-value phase (C1's wording): the
(key, value) pairs of the non-empty trimmed lines containing a colon, in
line order; lines without a colon are dropped. -/
def specKVPairs (caption : Str) : List (Str × Str) :=
  (productLines caption).filterMap
    (fun line => if ':' ∈ line then some (lineKey line, lineVal line) else none)

/-- Spec-side lookup (C1's wording): the value of the LAST pair carrying the
key. -/
def lookupLast (l : List (Str × Str)) (k : Str) : Option Str :=
  (l.reverse.find? (fun p => decide (p.1 = k))).map Prod.snd

/-- JS falsiness of an optional string: absent or empty. -/
def jsFalsy (o : Option Str) : Prop := o = none ∨ o = some []

/-- Spec-side acceptance of a raw price (C2's wording): it parses as a
base-10 floating-point number that is not negative. -/
def priceAccepted (raw : Str) : Prop := ∃ v, parsePF raw = some v ∧ jsNeg v = false

/-- Spec-side description of the tracking scan (C4's wording): the first
token whose prefix matches `tracking=` case-insensitively yields the
verbatim text after the prefix. -/
def specTracking (rest : List Str) : Option Str :=
  (rest.find? (fun p => trackingPfx.isPrefixOf (toLower p))).map
    (fun p => p.drop trackingPfx.length)

/-- Caption whose `name` key is present with an empty value (C2). -/
def capCexName : Str := str "/add_product\nName:\nPrice: 1"

/-- Caption whose `description` key is present with an empty value (C3). -/
def capCexDesc : Str := str "/add_product\nName: x\nPrice: 1\nDescription:"

/-- A fully well-formed caption (witnesses). -/
def capWithDesc : Str := str "/add_product\nName: x\nPrice: 1\nDescription: hi"

/-- An image variant of size 5 (C5). -/
def photoA : PhotoSize := { file_id := str "A", file_size := some 5, mime_type := none }

/-- A distinct image variant of the same size 5 (C5). -/
def photoB : PhotoSize := { file_id := str "B", file_size := some 5, mime_type := none }

/-- A stored order used by the witnesses. -/
def order123 : Order :=
  { order_number := str "123"
    customer_email := str "c@example.com"
    status := str "pending"
    tracking_number := none }

/-- An environment whose external calls all succeed trivially (witnesses). -/
def envNop : TgEnv :=
  { fileLink := fun _ => []
    download := fun _ => Except.ok []
    upload := fun _ _ => Except.ok []
    insertProduct := fun _ => Except.ok 0 }

/-- A message without photo (witnesses). -/
def msgNoPhoto : TgMessage := { chatId := 1, photo := none, caption := none, text := none }

/-- Spec scenario B input text. -/
def updTextB : Str := str "/update_order 123 shipped tracking=1Z999"

/-- Spec scenario C input text. -/
def updTextC : Str := str "/update_order 999 shipped"

/-- Input whose third token is exactly `tracking=` (C9). -/
def updTextEmptyTracking : Str := str "/update_order 123 shipped tracking="

/-- Decidable equality for `Except`, used by the concrete evaluations. -/
instance instDecEqExcept {ε α : Type} [DecidableEq ε] [DecidableEq α] :
    DecidableEq (Except ε α)
  | Except.error e, Except.error f =>
    if h : e = f then isTrue (by rw [h])
    else isFalse (fun hh => h (Except.error.inj hh))
  | Except.error _, Except.ok _ => isFalse (fun hh => Except.noConfusion hh)
  | Except.ok _, Except.error _ => isFalse (fun hh => Except.noConfusion hh)
  | Except.ok a, Except.ok b =>
    if h : a = b then isTrue (by rw [h])
    else isFalse (fun hh => h (Except.ok.inj hh))

/-- Folding the record assignments over the lines prepends exactly the
colon-line pairs, in reverse line order. -/
theorem foldl_colon_eq (lines : List Str) (init : List (Str × Str)) :
    lines.foldl
        (fun m line => if ':' ∈ line then (lineKey line, lineVal line) :: m else m)
        init
      = (lines.filterMap
          (fun line => if ':' ∈ line then some (lineKey line, lineVal line) else none)).reverse
        ++ init := by
  induction lines generalizing init with
  | nil => simp
  | cons l ls ih =>
    by_cases hc : ':' ∈ l
    · simp [List.foldl_cons, List.filterMap_cons, hc, ih]
    · simp [List.foldl_cons, List.filterMap_cons, hc, ih]

/-- The code's record is the reversed list of the spec-side pairs. -/
theorem productData_eq (caption : Str) :
    productData caption = (specKVPairs caption).reverse := by
  unfold productData specKVPairs
  rw [foldl_colon_eq]
  simp

/-- C1: the key-value extraction of `parseProductCaption` strips the command,
keeps the non-empty trimmed lines, splits each line with a colon at its
first colon into a trimmed lower-cased key and a trimmed value (these
shared phases are `productLines`, `lineKey`, `lineVal`), ignores lines
without a colon, and — proved here — looking any key up in the record the
code builds returns the value of the key's last occurrence among the
described pairs. -/
theorem C1_caption_kv_last_wins (caption : Str) (k : Str) :
    recGet (productData caption) k = lookupLast (specKVPairs caption) k := by
  unfold recGet lookupLast
  rw [productData_eq]

/-- The comparison step of the photo `reduce` computes the maximum of the
reported sizes. -/
theorem psize_hstep (p c : PhotoSize) : psize (hstep p c) = max (psize p) (psize c) := by
  unfold hstep
  by_cases h : psize c < psize p
  · rw [if_pos h, Nat.max_eq_left (Nat.le_of_lt h)]
  · rw [if_neg h, Nat.max_eq_right (Nat.le_of_not_lt h)]

/-- The fold of the photo `reduce` attains the maximal reported size. -/
theorem psize_foldl (ps : List PhotoSize) : ∀ p, psize (ps.foldl hstep p) = maxPsize (p :: ps) := by
  induction ps with
  | nil =>
    intro p
    simp [maxPsize]
  | cons c cs ih =>
    intro p
    calc psize (List.foldl hstep p (c :: cs))
        = psize (List.foldl hstep (hstep p c) cs) := rfl
      _ = maxPsize (hstep p c :: cs) := ih (hstep p c)
      _ = maxPsize (p :: c :: cs) := by
          simp [maxPsize, List.foldl_cons, psize_hstep, Nat.max_assoc]

/-- The `reduce` callback keeps the accumulator when it is strictly
larger. -/
theorem hstep_keep (p c : PhotoSize) (h : psize c < psize p) : hstep p c = p := by
  unfold hstep
  rw [if_pos h]

/-- The `reduce` callback moves to the current element otherwise — in
particular on a tie. -/
theorem hstep_take (p c : PhotoSize) (h : ¬ psize c < psize p) : hstep p c = c := by
  unfold hstep
  rw [if_neg h]

/-- The photo `reduce` returns the last-seen variant among those of maximal
reported size. -/
theorem foldl_hstep_lastmax (p : PhotoSize) (ps : List PhotoSize) :
    some (ps.foldl hstep p) = specLastMaxPhoto (p :: ps) := by
  induction ps using List.reverseRecOn with
  | nil =>
    simp [specLastMaxPhoto, maxPsize]
  | append_singleton qs a ih =>
    have hr : psize (qs.foldl hstep p) = maxPsize (p :: qs) := psize_foldl qs p
    have hcons : p :: (qs ++ [a]) = (p :: qs) ++ [a] := rfl
    have hM : maxPsize (p :: (qs ++ [a])) = max (maxPsize (p :: qs)) (psize a) := by
      rw [hcons]
      unfold maxPsize
      rw [List.foldl_append]
      rfl
    have hrev : (p :: (qs ++ [a])).reverse = a :: (p :: qs).reverse := by
      rw [hcons]
      simp
    rw [List.foldl_append, List.foldl_cons, List.foldl_nil]
    unfold specLastMaxPhoto
    rw [hrev]
    by_cases hle : maxPsize (p :: qs) ≤ psize a
    · have hMa : maxPsize (p :: (qs ++ [a])) = psize a := by
        rw [hM, Nat.max_eq_right hle]
      rw [List.find?_cons_of_pos _ (by simp [hMa])]
      rw [hstep_take _ a (by omega)]
    · have hlt : psize a < maxPsize (p :: qs) := Nat.lt_of_not_le hle
      have hMa : maxPsize (p :: (qs ++ [a])) = maxPsize (p :: qs) := by
        rw [hM, Nat.max_eq_left (Nat.le_of_lt hlt)]
      rw [List.find?_cons_of_neg _ (by simp [hMa, hle])]
      rw [hstep_keep _ a (by omega)]
      rw [ih]
      unfold specLastMaxPhoto
      rw [hMa]

/-- C5 counterexample: two distinct variants tie at the maximal size 5 and
the selection returns the SECOND one, not the first-seen one the claim
states. -/
theorem C5_counterexample :
    psize photoA = psize photoB ∧ photoA ≠ photoB ∧
      getHighestResolutionPhoto [photoA, photoB] = some photoB := by
  refine ⟨rfl, by decide, rfl⟩

/-- C5 (amended): on a non-empty list the selection returns a variant of
maximal reported byte size (missing sizes count as 0), and when several
variants tie for the maximum it returns the LAST-seen one — the `reduce`
keeps the accumulator only on a strict decrease, so a tie moves to the
later variant. -/
theorem C5_last_tie_selection (l : List PhotoSize) (hl : l ≠ []) :
    getHighestResolutionPhoto l = specLastMaxPhoto l := by
  cases l with
  | nil => exact absurd rfl hl
  | cons p ps => exact foldl_hstep_lastmax p ps

/-- Witness for C5 at a concrete singleton list. -/
theorem C5_last_tie_selection_witness :
    getHighestResolutionPhoto [photoA] = specLastMaxPhoto [photoA] :=
  C5_last_tie_selection [photoA] (by decide)

/-- Tokens produced by the whitespace split are never empty. -/
theorem splitWs_ne_nil {s t : Str} (ht : t ∈ splitWs s) : t ≠ [] := by
  have h := List.of_mem_filter ht
  simpa using h

/-- Control-flow characterisation of `parseOrderUpdate` in terms of the
token list: fewer than two tokens fail with the format message, and
otherwise the first two tokens and the tracking scan of the remainder make
up the result. -/
theorem parseOrderUpdate_cases (text : Str) :
    ((orderTokens text).length < 2 → parseOrderUpdate text = Except.error orderFormatMsg)
    ∧ (∀ a b rest, orderTokens text = a :: b :: rest →
        parseOrderUpdate text = Except.ok ⟨a, b, findTracking rest⟩) := by
  constructor
  · intro hlen
    unfold parseOrderUpdate
    by_cases h0 : trim (stripCommand updateOrderCmd text) = []
    · rw [if_pos h0]
    · rw [if_neg h0]
      rcases hsp : splitWs (trim (stripCommand updateOrderCmd text)) with _ | ⟨a, tl⟩
      · rfl
      · rcases tl with _ | ⟨b, rest⟩
        · rfl
        · exfalso
          have he : orderTokens text = a :: b :: rest := hsp
          rw [he] at hlen
          simp only [List.length_cons] at hlen
          omega
  · intro a b rest h
    have ha : a ≠ [] := splitWs_ne_nil (s := trim (stripCommand updateOrderCmd text))
      (by rw [show splitWs (trim (stripCommand updateOrderCmd text)) = a :: b :: rest from h]
          exact List.mem_cons_self a _)
    have hb : b ≠ [] := splitWs_ne_nil (s := trim (stripCommand updateOrderCmd text))
      (by rw [show splitWs (trim (stripCommand updateOrderCmd text)) = a :: b :: rest from h]
          exact List.mem_cons_of_mem a (List.mem_cons_self b rest))
    have h0 : trim (stripCommand updateOrderCmd text) ≠ [] := by
      intro he
      have hh : splitWs (trim (stripCommand updateOrderCmd text)) = a :: b :: rest := h
      rw [he] at hh
      simp [splitWs, splitAux] at hh
    unfold parseOrderUpdate
    rw [if_neg h0]
    rw [show splitWs (trim (stripCommand updateOrderCmd text)) = a :: b :: rest from h]
    simp [ha, hb]

/-- C4: `parseOrderUpdate` strips the command token, splits on whitespace
runs (`orderTokens`), fails with a validation error when fewer than two
tokens remain, and otherwise returns token 0 as order number, token 1 as
status, and as tracking number the verbatim text after the first
case-insensitive `tracking=` token at index 2 or later (`specTracking`);
extra trailing tokens are ignored. -/
theorem C4_order_tokens (text : Str) :
    ((orderTokens text).length < 2 → parseOrderUpdate text = Except.error orderFormatMsg)
    ∧ (∀ a b rest, orderTokens text = a :: b :: rest →
        parseOrderUpdate text = Except.ok ⟨a, b, specTracking rest⟩) := by
  have h := parseOrderUpdate_cases text
  exact ⟨h.1, fun a b rest hh => h.2 a b rest hh⟩

/-- Witness for C4 at the scenario-B text. -/
theorem C4_order_tokens_witness :
    parseOrderUpdate updTextB =
      Except.ok ⟨str "123", str "shipped", specTracking [str "tracking=1Z999"]⟩ :=
  (C4_order_tokens updTextB).2 (str "123") (str "shipped") [str "tracking=1Z999"] (by decide)

/-- C2 counterexample: in `/add_product\nName:\nPrice: 1` both the `name`
and the `price` key are present and the price parses as a non-negative
number, yet the parse fails with the name-required error — the code's
truthiness test also rejects a present-but-empty value, so the claim's
"in all other cases it succeeds" is false. -/
theorem C2_counterexample :
    recGet (productData capCexName) nameKey = some []
    ∧ recGet (productData capCexName) priceKey = some (str "1")
    ∧ priceAccepted (str "1")
    ∧ parseProductCaption capCexName = Except.error nameRequiredMsg := by
  refine ⟨by decide, by decide, ⟨JsNum.finite 1, by decide, by decide⟩, by decide⟩

/-- C2 (amended): the parse fails with the name-required message when the
`name` key is missing OR its value is empty; otherwise it fails with the
price-required message when the `price` key is missing OR empty; otherwise
it fails with the invalid-price message carrying the raw value exactly when
that value does not parse as a non-negative base-10 float; and in all
remaining cases it succeeds with the extracted name and parsed price. -/
theorem C2_required_and_price_validation (caption : Str) :
    (jsFalsy (recGet (productData caption) nameKey) →
        parseProductCaption caption = Except.error nameRequiredMsg)
    ∧ (∀ nm, recGet (productData caption) nameKey = some nm → nm ≠ [] →
        ((jsFalsy (recGet (productData caption) priceKey) →
            parseProductCaption caption = Except.error priceRequiredMsg)
         ∧ (∀ pr, recGet (productData caption) priceKey = some pr → pr ≠ [] →
             ((¬ priceAccepted pr →
                 parseProductCaption caption = Except.error (invalidPriceMsg pr))
              ∧ (∀ v, parsePF pr = some v → jsNeg v = false →
                  ∃ d, parseProductCaption caption =
                      Except.ok { name := nm, price := v, description := d }))))) := by
  constructor
  · rintro (h | h) <;> simp [parseProductCaption, h]
  · intro nm hnm hne
    constructor
    · rintro (h | h) <;> simp [parseProductCaption, hnm, hne, h]
    · intro pr hpr hpe
      constructor
      · intro hna
        rcases hv : parsePF pr with _ | v
        · simp [parseProductCaption, hnm, hne, hpr, hpe, hv]
        · have hneg : jsNeg v = true := by
            rcases hb : jsNeg v with _ | _
            · exact absurd ⟨v, hv, hb⟩ hna
            · rfl
          simp [parseProductCaption, hnm, hne, hpr, hpe, hv, hneg]
      · intro v hv hneg
        refine ⟨(match recGet (productData caption) descKey with
                 | none => none
                 | some d => if d = [] then none else some d), ?_⟩
        simp [parseProductCaption, hnm, hne, hpr, hpe, hv, hneg]

/-- Witness for C2 at a fully well-formed caption. -/
theorem C2_required_and_price_validation_witness :
    ∃ d, parseProductCaption capWithDesc =
        Except.ok { name := str "x", price := JsNum.finite 1, description := d } :=
  ((((C2_required_and_price_validation capWithDesc).2 (str "x") (by decide)
      (by decide)).2 (str "1") (by decide) (by decide)).2 (JsNum.finite 1)
      (by decide) (by decide))

/-- C3 counterexample: with a `Description:` line carrying an empty value
the key is present, yet the parse succeeds with description null — the
code's `data.description || null` collapses the empty string to null, so
the claim's "the result's description is the literal empty string" is
false. -/
theorem C3_counterexample :
    recGet (productData capCexDesc) descKey = some []
    ∧ parseProductCaption capCexDesc =
        Except.ok { name := str "x", price := JsNum.finite 1, description := none } := by
  refine ⟨by decide, by decide⟩

/-- C3 (amended): in every accepted caption, the description is null when
the `description` key is absent AND ALSO when it is present with an empty
value (the falsy check collapses the empty string to null); a non-empty
value is kept verbatim, so the result's description is never the empty
string. -/
theorem C3_description_empty_collapses (caption : Str) (p : ParsedProduct)
    (h : parseProductCaption caption = Except.ok p) :
    (recGet (productData caption) descKey = none → p.description = none)
    ∧ (recGet (productData caption) descKey = some [] → p.description = none)
    ∧ (∀ d, recGet (productData caption) descKey = some d → d ≠ [] →
        p.description = some d) := by
  unfold parseProductCaption at h
  repeat' split at h
  any_goals exact Except.noConfusion h
  all_goals
    injection h with h
    subst h
    exact ⟨fun hd => by simp_all, fun hd => by simp_all, fun d hd hde => by simp_all⟩

/-- Witness for C3 at a caption with a non-empty description. -/
theorem C3_description_empty_collapses_witness :
    (({ name := str "x", price := JsNum.finite 1, description := some (str "hi") } :
        ParsedProduct)).description = some (str "hi") :=
  (C3_description_empty_collapses capWithDesc
      { name := str "x", price := JsNum.finite 1, description := some (str "hi") }
      (by decide)).2.2 (str "hi") (by decide) (by decide)

/-- The full effect trace of `handleUpdateOrder` when the parse succeeds and
the order is found. -/
theorem handleUpdateOrder_found (chatId : ℤ) (t : Str) (store : List Order)
    (p : ParsedOrderUpdate) (o : Order)
    (hp : parseOrderUpdate t = Except.ok p)
    (hf : findOrderByNumber store p.orderNumber = some o) :
    handleUpdateOrder chatId (some t) store =
      [Effect.findOrder p.orderNumber,
       Effect.updateOrder p.orderNumber ⟨p.status, p.trackingNumber⟩,
       Effect.logEmail (applyUpdates o ⟨p.status, p.trackingNumber⟩).customer_email
         p.orderNumber p.status,
       Effect.sendMessage chatId
         (confirmMsg p.orderNumber p.status
           (applyUpdates o ⟨p.status, p.trackingNumber⟩).customer_email
           (jsTrackLine p.trackingNumber))] := by
  cases htn : p.trackingNumber <;>
    simp only [handleUpdateOrder, hp, hf, htn]

/-- C6: whenever the command parses and the order is found, the payload sent
to the store carries the parsed status, and its tracking field is exactly
the parse result's tracking number — present iff the parse produced one —
so an absent tracking number leaves the stored tracking number unchanged
under the partial-update semantics. -/
theorem C6_update_payload (chatId : ℤ) (t : Str) (store : List Order)
    (p : ParsedOrderUpdate) (o : Order)
    (hp : parseOrderUpdate t = Except.ok p)
    (hf : findOrderByNumber store p.orderNumber = some o) :
    ∃ u : OrderUpdates,
      Effect.updateOrder p.orderNumber u ∈ handleUpdateOrder chatId (some t) store
      ∧ u.status = p.status
      ∧ u.tracking_number = p.trackingNumber
      ∧ (p.trackingNumber = none →
          (applyUpdates o u).tracking_number = o.tracking_number) := by
  refine ⟨⟨p.status, p.trackingNumber⟩, ?_, rfl, rfl, ?_⟩
  · rw [handleUpdateOrder_found chatId t store p o hp hf]
    simp
  · intro htn
    simp [applyUpdates, htn]

/-- Witness for C6 at scenario B: `/update_order 123 shipped tracking=1Z999`
against a store holding order 123. -/
theorem C6_update_payload_witness :
    ∃ u : OrderUpdates,
      Effect.updateOrder (str "123") u ∈ handleUpdateOrder 1 (some updTextB) [order123]
      ∧ u.status = str "shipped"
      ∧ u.tracking_number = some (str "1Z999")
      ∧ ((some (str "1Z999") : Option Str) = none →
          (applyUpdates order123 u).tracking_number = order123.tracking_number) :=
  C6_update_payload 1 updTextB [order123]
    ⟨str "123", str "shipped", some (str "1Z999")⟩ order123 (by decide) (by decide)

/-- C7: whenever the command parses but the lookup reports the order absent,
the handler's whole trace is the lookup followed by the not-found reply
naming the order number — in particular no update call and no other
state-changing call occurs. -/
theorem C7_not_found_stops (chatId : ℤ) (t : Str) (store : List Order)
    (p : ParsedOrderUpdate)
    (hp : parseOrderUpdate t = Except.ok p)
    (hf : findOrderByNumber store p.orderNumber = none) :
    handleUpdateOrder chatId (some t) store =
      [Effect.findOrder p.orderNumber,
       Effect.sendMessage chatId (notFoundMsg p.orderNumber)]
    ∧ ∀ n u, Effect.updateOrder n u ∉ handleUpdateOrder chatId (some t) store := by
  have he : handleUpdateOrder chatId (some t) store =
      [Effect.findOrder p.orderNumber,
       Effect.sendMessage chatId (notFoundMsg p.orderNumber)] := by
    simp only [handleUpdateOrder, hp, hf]
  refine ⟨he, ?_⟩
  intro n u hm
  rw [he] at hm
  simp at hm

/-- Witness for C7 at scenario C: `/update_order 999 shipped` against an
empty store. -/
theorem C7_not_found_stops_witness :
    handleUpdateOrder 1 (some updTextC) [] =
      [Effect.findOrder (str "999"),
       Effect.sendMessage 1 (notFoundMsg (str "999"))]
    ∧ ∀ n u, Effect.updateOrder n u ∉ handleUpdateOrder 1 (some updTextC) [] :=
  C7_not_found_stops 1 updTextC [] ⟨str "999", str "shipped", none⟩ (by decide) rfl

/-- C8: a missing or wrong secret header yields a client-error status with
nothing dispatched; a matching secret with a missing body yields a
client-error status with nothing dispatched; otherwise the body is handed
to the dispatcher and a success status is returned. -/
theorem C8_webhook_auth (U : Type) (cfg : Str) (s : Option Str) (b : Option U) :
    (s ≠ some cfg →
      isClientError (webhookPost cfg s b).1 ∧ (webhookPost cfg s b).2 = none)
    ∧ (s = some cfg → b = none →
      isClientError (webhookPost cfg s b).1 ∧ (webhookPost cfg s b).2 = none)
    ∧ (∀ u, s = some cfg → b = some u →
      isSuccess (webhookPost cfg s b).1 ∧ (webhookPost cfg s b).2 = some u) := by
  refine ⟨?_, ?_, ?_⟩
  · intro hs
    unfold webhookPost
    rw [if_neg hs]
    exact ⟨(show isClientError 403 from ⟨by omega, by omega⟩), rfl⟩
  · intro hs hb
    subst hs
    subst hb
    unfold webhookPost
    rw [if_pos rfl]
    exact ⟨(show isClientError 400 from ⟨by omega, by omega⟩), rfl⟩
  · intro u hs hb
    subst hs
    subst hb
    unfold webhookPost
    rw [if_pos rfl]
    exact ⟨(show isSuccess 200 from ⟨by omega, by omega⟩), rfl⟩

/-- Witness for C8 at a wrong secret. -/
theorem C8_webhook_auth_witness :
    isClientError (webhookPost (str "s") (some (str "wrong")) (none : Option ℕ)).1
    ∧ (webhookPost (str "s") (some (str "wrong")) (none : Option ℕ)).2 = none :=
  (C8_webhook_auth ℕ (str "s") (some (str "wrong")) none).1 (by decide)

/-- C9: a token that is exactly `tracking=` makes the parse return the
PRESENT empty string, the update payload then carries the empty tracking
number (overwriting any stored one under the partial-update semantics),
while the confirmation reply's truthiness test drops the tracking line. -/
theorem C9_empty_tracking_token :
    (∀ t a b rest, orderTokens t = a :: b :: rest →
        rest.find? isTrackingTok = some trackingPfx →
        parseOrderUpdate t = Except.ok ⟨a, b, some []⟩)
    ∧ (∀ (chatId : ℤ) (t : Str) (store : List Order) (p : ParsedOrderUpdate) (o : Order),
        parseOrderUpdate t = Except.ok p → p.trackingNumber = some [] →
        findOrderByNumber store p.orderNumber = some o →
        (Effect.updateOrder p.orderNumber ⟨p.status, some []⟩ ∈
            handleUpdateOrder chatId (some t) store)
        ∧ (applyUpdates o ⟨p.status, some []⟩).tracking_number = some []
        ∧ (Effect.sendMessage chatId
              (confirmMsg p.orderNumber p.status
                (applyUpdates o ⟨p.status, some []⟩).customer_email none) ∈
            handleUpdateOrder chatId (some t) store)) := by
  constructor
  · intro t a b rest h hf
    have he := (parseOrderUpdate_cases t).2 a b rest h
    rw [he]
    unfold findTracking
    rw [hf]
    rfl
  · intro chatId t store p o hp htn hf
    have he := handleUpdateOrder_found chatId t store p o hp hf
    rw [htn] at he
    rw [he]
    refine ⟨?_, rfl, ?_⟩
    · simp
    · simp [jsTrackLine]

/-- Witness for C9 at `/update_order 123 shipped tracking=`. -/
theorem C9_empty_tracking_token_witness :
    (Effect.updateOrder (str "123") ⟨str "shipped", some []⟩ ∈
        handleUpdateOrder 1 (some updTextEmptyTracking) [order123])
    ∧ (applyUpdates order123 ⟨str "shipped", some []⟩).tracking_number = some []
    ∧ (Effect.sendMessage 1
          (confirmMsg (str "123") (str "shipped")
            (applyUpdates order123 ⟨str "shipped", some []⟩).customer_email none) ∈
        handleUpdateOrder 1 (some updTextEmptyTracking) [order123]) :=
  C9_empty_tracking_token.2 1 updTextEmptyTracking [order123]
    ⟨str "123", str "shipped", some []⟩ order123 (by decide) rfl (by decide)

/-- C10: the selection is partial — on an empty list it has no result (the
`reduce` throws) — but the add-product flow guards it: with a missing or
empty photo list the handler replies and stops, and on any non-empty list
the selection succeeds, so the error branch is unreachable in the flow. -/
theorem C10_selection_precondition :
    getHighestResolutionPhoto ([] : List PhotoSize) = none
    ∧ (∀ env msg, (msg.photo = none ∨ msg.photo = some []) →
        handleAddProduct env msg = [Effect.sendMessage msg.chatId photoRequiredMsg])
    ∧ (∀ p ps, (getHighestResolutionPhoto (p :: ps)).isSome = true) := by
  refine ⟨rfl, ?_, ?_⟩
  · rintro env msg (h | h) <;> simp [handleAddProduct, h]
  · intro p ps
    rfl

/-- Witness for C10 at a photo-less message. -/
theorem C10_selection_precondition_witness :
    handleAddProduct envNop msgNoPhoto = [Effect.sendMessage 1 photoRequiredMsg] :=
  C10_selection_precondition.2.1 envNop msgNoPhoto (Or.inl rfl)

end TelegramBridge
